import Mathlib

set_option autoImplicit false

/-!
Verification of the Lipana STK-push payment backend (`src/app.py`):
status normalization, webhook signature gating and store updates,
the paginated remote status fetcher, the status-poll endpoint and
payment-initiation validation, embedded shallowly in Lean.
-/


/-- JSON values as produced by Python's `json.loads` (numbers restricted to
integers, which is all the payloads in scope use). `null` also stands for
Python's `None` (the default of `dict.get` with one argument). -/
inductive Json where
  | null
  | bool (b : Bool)
  | num (n : Int)
  | str (s : String)
  | arr (elts : List Json)
  | obj (fields : List (String × Json))

/-- Python truthiness (`bool(x)`) on JSON values: `None`, `False`, `0`, `""`,
`[]` and `{}` are falsy, everything else truthy. -/
def Json.truthy : Json → Bool
  | .null => false
  | .bool b => b
  | .num n => n != 0
  | .str s => s != ""
  | .arr l => !l.isEmpty
  | .obj l => !l.isEmpty

/-- Python `d.get(k, default)` on a JSON object's field list (`json.loads`
yields unique keys, so first-match lookup coincides with dict lookup). -/
def jget (fields : List (String × Json)) (k : String) (d : Json) : Json :=
  (fields.lookup k).getD d

/-- Python dict keys must be hashable: `list`/`dict` keys raise `TypeError`. -/
def Json.hashable : Json → Bool
  | .arr _ => false
  | .obj _ => false
  | _ => true

/-- Python `==` on the hashable (scalar) JSON values that can appear as
`payment_store` keys.  Keys of other shapes never enter the store, because
`transaction_id in payment_store` raises `TypeError` first (modelled below by
the `hashable` guard), so they compare unequal to every stored key here. -/
def Json.keyEq : Json → Json → Bool
  | .null, .null => true
  | .bool a, .bool b => a == b
  | .num a, .num b => a == b
  | .str a, .str b => a == b
  | _, _ => false

/-- Python's whitespace class for `str.strip()` (ASCII range, which is all
the payloads in scope use). -/
def pySpace (c : Char) : Bool :=
  c = ' ' ∨ c = '\t' ∨ c = '\n' ∨ c = '\r' ∨ c = '\x0b' ∨ c = '\x0c'

/-- Python `s.strip()`: drop leading and trailing whitespace. -/
def pyStrip (s : String) : String :=
  String.mk (((s.data.dropWhile pySpace).reverse.dropWhile pySpace).reverse)

/-- Python `s.lower()` (ASCII case mapping, which is all the status
vocabulary in scope uses). -/
def pyLower (s : String) : String :=
  String.mk (s.data.map Char.toLower)

/-- `map_lipana_status` from `app.py`: map Lipana's raw status strings to the
internal vocabulary.  The source lowercases, strips surrounding whitespace,
sends `success`/`completed` to `"success"`, sends
`failed`/`failure`/`cancelled`/`canceled` to `"failed"`, and everything else
to `"pending"`.  (`(raw or "")` is the identity on strings, since the empty
string maps to itself.) -/
def map_lipana_status (raw : String) : String :=
  let r := pyStrip (pyLower raw)
  if r = "success" ∨ r = "completed" then "success"
  else if r = "failed" ∨ r = "failure" ∨ r = "cancelled" ∨ r = "canceled" then "failed"
  else "pending"

/-- The three internal status values. -/
def internalStatuses : List String := ["pending", "success", "failed"]

/-- One transaction object in a page of `GET /v1/transactions`: the two
fields `fetch_lipana_status` reads, each `none` when the key is absent from
the object (`tx.get("transactionId")` is `None`, `tx.get("status", "")`
falls back to `""`). -/
structure Tx where
  transactionId : Option String
  status : Option String

/-- The `data` field of a page body after the source's normalisation
(`items = body.get("data", [])`, unwrapping one nested
`{"data": [...]}` level): either a list of transactions, or anything
that is not a list (`not isinstance(items, list)`). -/
inductive ItemsField where
  | notList
  | list (txs : List Tx)

/-- Outcome of one `requests.get` for a page, as `fetch_lipana_status`
observes it: a raised `requests` exception (timeout / connection error),
a non-success HTTP status (`not resp.ok`), a body `resp.json()` cannot parse
(raises a `RequestException` subclass), or a parsed body carrying the
normalised `data` field and `pagination.get("pages", 1)`. -/
inductive PageResp where
  | exn
  | httpErr
  | badJson
  | ok (items : ItemsField) (totalPages : Nat)

/-- The inner `for tx in items` scan of one page: the normalized status of
the first item whose `transactionId` equals the requested id. -/
def scanPage (txs : List Tx) (tid : String) : Option String :=
  match txs with
  | [] => none
  | t :: ts =>
    if t.transactionId = some tid then some (map_lipana_status (t.status.getD ""))
    else scanPage ts tid

/-- The `while page <= 3` loop of `fetch_lipana_status`.  `page` is the
1-based page counter and the loop guard `page ≤ 3` is the source's bound;
`fuel` makes the recursion structural and is always called with
`fuel + page = 4`, so it never cuts the loop short.  A transport error,
non-success HTTP status or unparsable body yields `none` (`return None`);
a non-list or empty `data` breaks out (`return None`); a match returns its
normalized status immediately; otherwise the loop continues only while
`page < total_pages` (`if page >= total_pages: break`). -/
def fetchLoop (provider : Nat → PageResp) (tid : String) : Nat → Nat → Option String
  | 0, _ => none
  | fuel + 1, page =>
    if page ≤ 3 then
      match provider page with
      | .exn => none
      | .httpErr => none
      | .badJson => none
      | .ok .notList _ => none
      | .ok (.list []) _ => none
      | .ok (.list (t :: ts)) totalPages =>
        match scanPage (t :: ts) tid with
        | some s => some s
        | none =>
          if totalPages ≤ page then none
          else fetchLoop provider tid fuel (page + 1)
    else none

/-- `fetch_lipana_status` from `app.py`, over an abstract provider giving
the outcome of each page request: scan up to 3 pages of the transaction
list for the tracking id and return its normalized status, or `None`.
(The source returns `{"status": s}`; the wrapper dict is elided.) -/
def fetch_lipana_status (provider : Nat → PageResp) (tid : String) : Option String :=
  fetchLoop provider tid 3 1

/-- Instrumented twin of `fetchLoop`: the list of page numbers actually
requested from the provider, in request order. -/
def queriedLoop (provider : Nat → PageResp) (tid : String) : Nat → Nat → List Nat
  | 0, _ => []
  | fuel + 1, page =>
    if page ≤ 3 then
      match provider page with
      | .ok (.list (t :: ts)) totalPages =>
        (match scanPage (t :: ts) tid with
         | some _ => [page]
         | none =>
           if totalPages ≤ page then [page]
           else page :: queriedLoop provider tid fuel (page + 1))
      | _ => [page]
    else []

/-- The pages `fetch_lipana_status` requests for a given provider and id. -/
def pagesQueried (provider : Nat → PageResp) (tid : String) : List Nat :=
  queriedLoop provider tid 3 1

/-- Concrete provider for the pagination witness: page 1 has one
non-matching record, page 2 contains the requested id `tx2` with raw status
`completed`, across a reported total of 5 pages. -/
def providerEx : Nat → PageResp := fun p =>
  if p = 1 then .ok (.list [⟨some "a", some "pending"⟩]) 5
  else if p = 2 then .ok (.list [⟨some "tx2", some "completed"⟩]) 5
  else .ok (.list [⟨some "c", some "pending"⟩]) 5

/-- Provider whose every page request raises a transport error. -/
def providerFail : Nat → PageResp := fun _ => .exn

/-- A `payment_store` record: `{status, phone, amount}`.  `amount` stays a
raw JSON value because that is what the handlers store: initiation stores an
int, recovery stores `0`, and webhook registration stores the raw event
value, `None` (`Json.null`) when the key is absent. -/
structure PaymentRecord where
  status : String
  phone : String
  amount : Json

/-- The in-memory `payment_store` dict, as an insertion-ordered association
list keyed by the Python value used as key (always a hashable scalar: the
handlers guard `list`/`dict` ids with `hashable` before touching the dict,
mirroring the `TypeError` Python would raise). -/
abbrev Store := List (Json × PaymentRecord)

/-- `k in payment_store`. -/
def containsKey : Store → Json → Bool
  | [], _ => false
  | e :: es, k => e.1.keyEq k || containsKey es k

/-- `payment_store.get(k)`. -/
def storeGet : Store → Json → Option PaymentRecord
  | [], _ => none
  | e :: es, k => if e.1.keyEq k then some e.2 else storeGet es k

/-- `payment_store[k]["status"] = st`: overwrite the status of the record at
`k` in place (every entry whose key equals `k`; keys are unique in any store
the handlers build). -/
def storeSetStatus : Store → Json → String → Store
  | [], _, _ => []
  | e :: es, k, st =>
    (if e.1.keyEq k then (e.1, { e.2 with status := st }) else e) :: storeSetStatus es k st

/-- Replace the record at each entry whose key equals `k`. -/
def storeReplace : Store → Json → PaymentRecord → Store
  | [], _, _ => []
  | e :: es, k, r => (if e.1.keyEq k then (e.1, r) else e) :: storeReplace es k r

/-- `payment_store[k] = r`: dict assignment — replace in place when the key
exists, append otherwise. -/
def storePut (store : Store) (k : Json) (r : PaymentRecord) : Store :=
  if containsKey store k then storeReplace store k r else store ++ [(k, r)]

/-- `verify_webhook_signature` from `app.py`.  The HMAC-SHA256 hexdigest of
the raw body under `LIPANA_WEBHOOK_SECRET` is an external primitive and
enters the model as the input `expected`; `hmac.compare_digest` is a
(timing-safe) string equality. -/
def verify_webhook_signature (expected : String) (signature : String) : Bool :=
  signature == expected

/-- `(x or "")` followed by a string-method call, as the handlers apply it
to JSON field values: a string passes through, any other falsy value
collapses to `""`, and a truthy non-string raises `AttributeError` on the
method call (`none` here), which Flask surfaces as a 500 response. -/
def pyStrOrEmpty : Json → Option String
  | .str s => some s
  | j => if j.truthy then none else some ""

/-- Python `s.lstrip("+")`: drop every leading `+`. -/
def pyLstripPlus (s : String) : String :=
  String.mk (s.data.dropWhile (· = '+'))

/-- `event_data.get("phone", "").lstrip("+")`: the default only covers an
absent key, so a present non-string value raises `AttributeError` (`none`). -/
def webhookPhone (ed : List (String × Json)) : Option String :=
  match jget ed "phone" (.str "") with
  | .str s => some (pyLstripPlus s)
  | _ => none

/-- `event_data.get("transactionId") or event_data.get("transaction_id", "")`:
Python `or` keeps the first operand when truthy and otherwise evaluates the
second, whose `.get` default is `""`. -/
def webhookTransactionId (ed : List (String × Json)) : Json :=
  let a := jget ed "transactionId" .null
  if a.truthy then a else jget ed "transaction_id" (.str "")

/-- Webhook handler outcomes (`app.py` `webhook`). -/
inductive WebhookResp where
  | unauthorizedMissing
  | unauthorizedInvalid
  | invalidJson
  | received
deriving DecidableEq

/-- The store-update step of the webhook handler (`app.py` lines 392-403):
an id already present has its `status` overwritten with the resolved value,
unconditionally; an unseen id registers a new record with the event's phone
(leading `+` stripped, `""` when the key is absent) and raw amount value
(`None` when the key is absent).  `none` models a raised exception: an
unhashable id used as dict key, or a non-string phone value. -/
def webhookApply (store : Store) (tid : Json) (resolved : String)
    (ed : List (String × Json)) : Option Store :=
  if tid.hashable then
    if containsKey store tid then some (storeSetStatus store tid resolved)
    else
      match webhookPhone ed with
      | some ph => some (storePut store tid ⟨resolved, ph, jget ed "amount" Json.null⟩)
      | none => none
  else none

/-- The `POST /webhook` handler.  `sigHeader` is the `X-Lipana-Signature`
header (absent ↦ `""` via `headers.get(..., "")`); `expected` is the HMAC
hexdigest of the raw body; `parsed` is `json.loads` of the raw body (`none`
= `JSONDecodeError` → 400).  The overall `none` models an uncaught
exception (Flask 500): a body or `data` field that is valid JSON but not an
object, a truthy non-string `status`, a non-string `phone` on registration,
or an unhashable id.  (`data.get("event", "")` is only logged and is
elided.) -/
def webhook (store : Store) (sigHeader : Option String) (expected : String)
    (parsed : Option Json) : Option (WebhookResp × Store) :=
  let signature := sigHeader.getD ""
  if signature = "" then some (.unauthorizedMissing, store)
  else if ¬ verify_webhook_signature expected signature then some (.unauthorizedInvalid, store)
  else
    match parsed with
    | none => some (.invalidJson, store)
    | some (.obj fields) =>
      match jget fields "data" (.obj []) with
      | .obj ed =>
        match pyStrOrEmpty (jget ed "status" (.str "")) with
        | some raw =>
          match webhookApply store (webhookTransactionId ed) (map_lipana_status raw) ed with
          | some store2 => some (.received, store2)
          | none => none
        | none => none
      | _ => none
    | some _ => none

/-- Concrete webhook payload used by witnesses. -/
def payloadEx : Json :=
  .obj [("event", .str "payment.success"),
        ("data", .obj [("transactionId", .str "t1"), ("status", .str "success"),
                       ("phone", .str "+254700000001"), ("amount", .num 50)])]

/-- Poll responses of `GET /status/<tracking_id>`: `ok` is the
`200 {status, phone, amount}` body, `notFound` the
`404 {"status": "not_found"}` body. -/
inductive StatusResp where
  | ok (status : String) (phone : String) (amount : Json)
  | notFound

/-- The `check_status` handler (`app.py` lines 290-329), over the same
abstract page provider as `fetch_lipana_status`.  `record =
payment_store.get(tracking_id)`; `if not record` means the id is absent
(stored records are never empty dicts).  On a miss, a successful remote
fetch materializes `{status: live, phone: "Recovered", amount: 0}` and
returns it; a failed fetch answers 404.  On a hit with status `"pending"`,
a remote fetch result that is non-pending is written over the record's
status in place; the (possibly updated) record's fields are returned. -/
def check_status (store : Store) (provider : Nat → PageResp) (tid : String) :
    StatusResp × Store :=
  match storeGet store (.str tid) with
  | none =>
    match fetch_lipana_status provider tid with
    | some live =>
      (.ok live "Recovered" (.num 0),
       storePut store (.str tid) ⟨live, "Recovered", .num 0⟩)
    | none => (.notFound, store)
  | some record =>
    if record.status = "pending" then
      match fetch_lipana_status provider tid with
      | some live =>
        if live ≠ "pending" then
          (.ok live record.phone record.amount, storeSetStatus store (.str tid) live)
        else (.ok record.status record.phone record.amount, store)
      | none => (.ok record.status record.phone record.amount, store)
    else (.ok record.status record.phone record.amount, store)

mutual

/-- Python `repr()` on our JSON subset (string escaping elided): never the
empty string, which is all the validation path observes of non-strings. -/
def pyRepr : Json → String
  | .null => "None"
  | .bool true => "True"
  | .bool false => "False"
  | .num n => toString n
  | .str s => "'" ++ s ++ "'"
  | .arr l => "[" ++ pyReprList l ++ "]"
  | .obj l => "\x7b" ++ pyReprFields l ++ "\x7d"

def pyReprList : List Json → String
  | [] => ""
  | [x] => pyRepr x
  | x :: xs => pyRepr x ++ ", " ++ pyReprList xs

def pyReprFields : List (String × Json) → String
  | [] => ""
  | [(k, v)] => "'" ++ k ++ "': " ++ pyRepr v
  | (k, v) :: xs => "'" ++ k ++ "': " ++ pyRepr v ++ ", " ++ pyReprFields xs

end

/-- Python `str()` on JSON values (`str(body.get("phone", ""))`): the
identity on strings, the repr otherwise. -/
def pyStr : Json → String
  | .str s => s
  | j => pyRepr j

/-- Python `a or b`: the first operand when truthy, the second otherwise. -/
def pyOr (a b : Json) : Json :=
  if a.truthy then a else b

/-- Longest prefix of decimal digits, as digit values. -/
def takeDigits : List Char → List Nat × List Char
  | [] => ([], [])
  | c :: rest =>
    if c.isDigit then
      let (ds, r) := takeDigits rest
      ((c.toNat - 48) :: ds, r)
    else ([], c :: rest)

/-- Digit list to the number it denotes (most significant first). -/
def digitsToNat (ds : List Nat) : Nat :=
  ds.foldl (fun a d => a * 10 + d) 0

/-- `int(float(s))` for a string amount, `none` where Python's `float()`
raises `ValueError` (caught by the source → 400).  The grammar covered is
optionally signed decimal literals with optional fractional part and
exponent, surrounded by whitespace; `int()` truncates toward zero.  Python
additionally accepts `inf`/`nan` (whose `int()` conversion then raises
outside the source's `except` clause) and underscore separators; the
claims in scope exercise neither. -/
def pyFloatParse (s : String) : Option Int :=
  let cs := ((s.data.dropWhile pySpace).reverse.dropWhile pySpace).reverse
  let (neg, cs1) :=
    match cs with
    | '+' :: r => (false, r)
    | '-' :: r => (true, r)
    | _ => (false, cs)
  let (ip, cs2) := takeDigits cs1
  let (fp, cs3) :=
    match cs2 with
    | '.' :: r => takeDigits r
    | _ => ([], cs2)
  if ip.isEmpty ∧ fp.isEmpty then none
  else
    let expPart : Option (Int × List Char) :=
      match cs3 with
      | c :: r =>
        if c = 'e' ∨ c = 'E' then
          let (eneg, r2) :=
            match r with
            | '+' :: r2 => (false, r2)
            | '-' :: r2 => (true, r2)
            | _ => (false, r)
          let (eds, r3) := takeDigits r2
          if eds.isEmpty then none
          else some ((if eneg then -(digitsToNat eds : Int) else (digitsToNat eds : Int)), r3)
        else none
      | [] => some (0, [])
    match (match cs3 with | [] => some ((0 : Int), ([] : List Char)) | _ => expPart) with
    | none => none
    | some (e, rest) =>
      if ¬ rest.isEmpty then none
      else
        let digits := ip ++ fp
        let scale : Int := (fp.length : Int) - e
        let mag : Nat :=
          if scale ≤ 0 then digitsToNat digits * 10 ^ (-scale).toNat
          else digitsToNat (digits.take (digits.length - scale.toNat))
        some (if neg then -(mag : Int) else (mag : Int))

/-- `int(float(amount))` on the raw JSON amount value: numbers and booleans
convert exactly; strings parse as above; any other value raises `TypeError`
(caught by the source → 400), hence `none`. -/
def pyFloatToInt : Json → Option Int
  | .num n => some n
  | .bool b => some (if b then 1 else 0)
  | .str s => pyFloatParse s
  | _ => none

/-- `phone.lstrip("+").lstrip("0")`, then prefix the country code unless
already present (`if not phone.startswith("254")`). -/
def normalize_phone (phone : String) : String :=
  let p := String.mk ((phone.data.dropWhile (· = '+')).dropWhile (· = '0'))
  if p.startsWith "254" then p else "254" ++ p

/-- `request.get_json(silent=True) or {}`: an unparsable or falsy body
collapses to the empty object. -/
def getJsonBody : Option Json → Json
  | some j => if j.truthy then j else .obj []
  | none => .obj []

/-- Outcome of the `requests.post` to `/transactions/push-stk`: a timeout
(→ 504); an HTTP error from `raise_for_status`, carrying the error body if
`exc.response.json()` parsed (→ 502); any other transport failure,
including an unparsable 2xx body (→ 502); or a 2xx response whose body
parsed to `result`. -/
inductive PushResult where
  | timeout
  | httpError (body : Option Json)
  | netError
  | ok (result : Json)

/-- `POST /pay` outcomes. -/
inductive PayResp where
  | badRequest (msg : String)
  | gatewayTimeout
  | gatewayError (msg : Json)
  | okTracking (tid : Json)

/-- The `initiate_payment` handler (`app.py` lines 201-284), with the
provider call's outcome abstracted as `push`.  The result's `Bool` records
whether the provider was called at all; the overall `none` models an
uncaught exception (500): a truthy non-object body, a non-object error or
response body where `.get` is applied, or an unhashable tracking id used as
store key. -/
def initiate_payment (store : Store) (parsed : Option Json) (push : PushResult) :
    Option (PayResp × Store × Bool) :=
  match getJsonBody parsed with
  | .obj fields =>
    let phone := pyStrip (pyStr (jget fields "phone" (.str "")))
    let amount := jget fields "amount" .null
    if phone = "" then some (.badRequest "Phone number is required", store, false)
    else if ¬ amount.truthy then some (.badRequest "Amount is required", store, false)
    else
      match pyFloatToInt amount with
      | none => some (.badRequest "Amount must be a valid number", store, false)
      | some a =>
        if a < 10 then some (.badRequest "Minimum payment amount is KES 10", store, false)
        else
          match push with
          | .timeout => some (.gatewayTimeout, store, true)
          | .httpError bodyOpt =>
            match bodyOpt with
            | none =>
              some (.gatewayError (.str "Payment initiation failed"), store, true)
            | some (.obj efields) =>
              some (.gatewayError
                (jget efields "message" (.str "Payment initiation failed")), store, true)
            | some _ => none
          | .netError =>
            some (.gatewayError (.str "Could not reach payment gateway"), store, true)
          | .ok result =>
            match result with
            | .obj rfields =>
              match jget rfields "data" result with
              | .obj dfields =>
                let tid := pyOr (jget dfields "transactionId" .null)
                  (pyOr (jget dfields "transaction_id" .null)
                    (pyOr (jget dfields "checkoutRequestID" .null)
                      (pyOr (jget dfields "checkout_request_id" .null) (.str ""))))
                if ¬ tid.truthy then
                  some (.gatewayError (.str "Unexpected response from payment gateway"),
                    store, true)
                else if tid.hashable then
                  some (.okTracking tid,
                    storePut store tid ⟨"pending", normalize_phone phone, .num a⟩, true)
                else none
              | _ => none
            | _ => none
  | _ => none

lemma queriedLoop_bounds (provider : Nat → PageResp) (tid : String) :
    ∀ fuel page p, p ∈ queriedLoop provider tid fuel page →
      page ≤ p ∧ p ≤ 3 ∧ p < page + fuel := by
  intro fuel
  induction fuel with
  | zero => intro page p hp; simp [queriedLoop] at hp
  | succ n ih =>
    intro page p hp
    rw [queriedLoop] at hp
    split at hp
    · split at hp
      · split at hp
        · simp at hp; omega
        · split at hp
          · simp at hp; omega
          · rcases List.mem_cons.mp hp with rfl | hp'
            · omega
            · have := ih (page + 1) p hp'
              omega
      · simp at hp; omega
    · simp at hp

lemma queriedLoop_length (provider : Nat → PageResp) (tid : String) :
    ∀ fuel page, (queriedLoop provider tid fuel page).length ≤ fuel := by
  intro fuel
  induction fuel with
  | zero => intro page; simp [queriedLoop]
  | succ n ih =>
    intro page
    rw [queriedLoop]
    split
    · split
      · split
        · simp
        · split
          · simp
          · have := ih (page + 1)
            simp only [List.length_cons]
            omega
      · simp
    · simp

lemma queriedLoop_reach (provider : Nat → PageResp) (tid : String) :
    ∀ fuel page p, p ∈ queriedLoop provider tid fuel page →
      ∃ f2, 0 < f2 ∧
        fetchLoop provider tid fuel page = fetchLoop provider tid f2 p := by
  intro fuel
  induction fuel with
  | zero => intro page p hp; simp [queriedLoop] at hp
  | succ n ih =>
    intro page p hp
    rw [queriedLoop] at hp
    split at hp
    next h3 =>
      split at hp
      next t ts totalPages hprov =>
        split at hp
        next s hscan =>
          simp at hp; subst hp
          exact ⟨n + 1, Nat.succ_pos n, rfl⟩
        next hscan =>
          split at hp
          next hstop =>
            simp at hp; subst hp
            exact ⟨n + 1, Nat.succ_pos n, rfl⟩
          next hstop =>
            rcases List.mem_cons.mp hp with rfl | hp'
            · exact ⟨n + 1, Nat.succ_pos n, rfl⟩
            · obtain ⟨f2, hf2, heq⟩ := ih (page + 1) p hp'
              refine ⟨f2, hf2, ?_⟩
              rw [fetchLoop, if_pos h3]
              simp only [hprov, hscan]
              rw [if_neg hstop]
              exact heq
      next =>
        simp at hp; subst hp
        exact ⟨n + 1, Nat.succ_pos n, rfl⟩
    next => simp at hp

lemma queriedLoop_succ (provider : Nat → PageResp) (tid : String) :
    ∀ fuel page p, page ≤ p → p + 1 ∈ queriedLoop provider tid fuel page →
      ∃ t ts tp, provider p = .ok (.list (t :: ts)) tp ∧
        scanPage (t :: ts) tid = none ∧ p < tp := by
  intro fuel
  induction fuel with
  | zero => intro page p _ hp; simp [queriedLoop] at hp
  | succ n ih =>
    intro page p hpg hp
    rw [queriedLoop] at hp
    split at hp
    next h3 =>
      split at hp
      next t ts totalPages hprov =>
        split at hp
        next s hscan => simp at hp; omega
        next hscan =>
          split at hp
          next hstop => simp at hp; omega
          next hstop =>
            rcases List.mem_cons.mp hp with heq | hp'
            · omega
            · rcases Nat.lt_or_ge page p with hlt | hge
              · exact ih (page + 1) p (by omega) hp'
              · have hpe : page = p := by omega
                subst hpe
                exact ⟨t, ts, totalPages, hprov, hscan, by omega⟩
      next => simp at hp; omega
    next => simp at hp

lemma fetchLoop_page_four (provider : Nat → PageResp) (tid : String) :
    ∀ k, fetchLoop provider tid k 4 = none := by
  intro k
  cases k with
  | zero => rfl
  | succ n => rw [fetchLoop, if_neg (by omega)]

/-- C3: the remote status fetcher scans at most 3 pages, each with index in
`[1, 3]`, and terminates with priority: a page containing an item whose
`transactionId` equals the requested id makes it return that item's
normalized status immediately, without requesting the next page; a malformed
(non-list) or empty page stops the scan with `none` and no further request;
reaching the provider-reported total page count stops with `none` and no
further request; and when the 3-page budget is exhausted — page 3 scanned
well-formed and non-matching with the reported total still ahead — the scan
stops with `none` and page 4 is never requested. -/
theorem fetch_lipana_status_pagination (provider : Nat → PageResp) (tid : String) :
    ((pagesQueried provider tid).length ≤ 3
      ∧ ∀ p ∈ pagesQueried provider tid, 1 ≤ p ∧ p ≤ 3)
    ∧ (∀ p t ts tp s, p ∈ pagesQueried provider tid →
        provider p = .ok (.list (t :: ts)) tp → scanPage (t :: ts) tid = some s →
        fetch_lipana_status provider tid = some s ∧ p + 1 ∉ pagesQueried provider tid)
    ∧ (∀ p tp, p ∈ pagesQueried provider tid →
        (provider p = .ok .notList tp ∨ provider p = .ok (.list []) tp) →
        fetch_lipana_status provider tid = none ∧ p + 1 ∉ pagesQueried provider tid)
    ∧ (∀ p t ts tp, p ∈ pagesQueried provider tid →
        provider p = .ok (.list (t :: ts)) tp → scanPage (t :: ts) tid = none → tp ≤ p →
        fetch_lipana_status provider tid = none ∧ p + 1 ∉ pagesQueried provider tid)
    ∧ (∀ t ts tp, 3 ∈ pagesQueried provider tid →
        provider 3 = .ok (.list (t :: ts)) tp → scanPage (t :: ts) tid = none → 3 < tp →
        fetch_lipana_status provider tid = none ∧ 4 ∉ pagesQueried provider tid) := by
  refine ⟨⟨queriedLoop_length provider tid 3 1, fun p hp => ?_⟩, ?_, ?_, ?_, ?_⟩
  · have := queriedLoop_bounds provider tid 3 1 p hp; omega
  · intro p t ts tp s hp hprov hscan
    obtain ⟨f2, hf2, heq⟩ := queriedLoop_reach provider tid 3 1 p hp
    have hb := queriedLoop_bounds provider tid 3 1 p hp
    obtain ⟨k, rfl⟩ : ∃ k, f2 = k + 1 := ⟨f2 - 1, by omega⟩
    constructor
    · show fetchLoop provider tid 3 1 = some s
      rw [heq]
      simp only [fetchLoop]
      rw [if_pos (show p ≤ 3 by omega)]
      simp only [hprov, hscan]
    · intro hmem
      obtain ⟨t', ts', tp', hprov', hscan', _⟩ :=
        queriedLoop_succ provider tid 3 1 p (by omega) hmem
      rw [hprov] at hprov'
      injection hprov' with hitems htp
      injection hitems with hlist
      injection hlist with ht hts
      subst ht; subst hts
      rw [hscan] at hscan'
      exact Option.noConfusion hscan'
  · intro p tp hp hprov
    obtain ⟨f2, hf2, heq⟩ := queriedLoop_reach provider tid 3 1 p hp
    have hb := queriedLoop_bounds provider tid 3 1 p hp
    obtain ⟨k, rfl⟩ : ∃ k, f2 = k + 1 := ⟨f2 - 1, by omega⟩
    constructor
    · show fetchLoop provider tid 3 1 = none
      rw [heq]
      simp only [fetchLoop]
      rw [if_pos (show p ≤ 3 by omega)]
      rcases hprov with h | h <;> simp only [h]
    · intro hmem
      obtain ⟨t', ts', tp', hprov', _, _⟩ :=
        queriedLoop_succ provider tid 3 1 p (by omega) hmem
      rcases hprov with h | h <;> rw [h] at hprov'
      · injection hprov' with hitems htp
        exact ItemsField.noConfusion hitems
      · injection hprov' with hitems htp
        injection hitems with hlist
        exact List.noConfusion hlist
  · intro p t ts tp hp hprov hscan hstop
    obtain ⟨f2, hf2, heq⟩ := queriedLoop_reach provider tid 3 1 p hp
    have hb := queriedLoop_bounds provider tid 3 1 p hp
    obtain ⟨k, rfl⟩ : ∃ k, f2 = k + 1 := ⟨f2 - 1, by omega⟩
    constructor
    · show fetchLoop provider tid 3 1 = none
      rw [heq]
      simp only [fetchLoop]
      rw [if_pos (show p ≤ 3 by omega)]
      simp only [hprov, hscan]
      rw [if_pos hstop]
    · intro hmem
      obtain ⟨t', ts', tp', hprov', _, hlt'⟩ :=
        queriedLoop_succ provider tid 3 1 p (by omega) hmem
      rw [hprov] at hprov'
      injection hprov' with hitems htp
      omega
  · intro t ts tp hp hprov hscan hmore
    obtain ⟨f2, hf2, heq⟩ := queriedLoop_reach provider tid 3 1 3 hp
    obtain ⟨k, rfl⟩ : ∃ k, f2 = k + 1 := ⟨f2 - 1, by omega⟩
    constructor
    · show fetchLoop provider tid 3 1 = none
      rw [heq]
      simp only [fetchLoop]
      rw [if_pos (show (3 : Nat) ≤ 3 by omega)]
      simp only [hprov, hscan]
      rw [if_neg (show ¬ tp ≤ 3 by omega)]
      exact fetchLoop_page_four provider tid k
    · intro hmem
      have := queriedLoop_bounds provider tid 3 1 4 hmem
      omega

theorem fetch_lipana_status_pagination_witness :
    (fetch_lipana_status providerEx "tx2" = some "success" ∧
      2 + 1 ∉ pagesQueried providerEx "tx2") ∧
    (fetch_lipana_status providerEx "nomatch" = none ∧
      4 ∉ pagesQueried providerEx "nomatch") :=
  ⟨(fetch_lipana_status_pagination providerEx "tx2").2.1 2 ⟨some "tx2", some "completed"⟩ [] 5
      "success" (by decide) rfl (by decide),
   (fetch_lipana_status_pagination providerEx "nomatch").2.2.2.2 ⟨some "c", some "pending"⟩ [] 5
      (by decide) rfl (by decide) (by decide)⟩

/-- C4: a transport-level failure (a raised timeout or connection error) or
a non-success HTTP status on any requested page makes the fetcher return
`none`; the `try/except requests.exceptions.RequestException` wrapper means
no such failure escapes `fetch_lipana_status` to its caller, which this
embedding renders by making every failure constructor produce `none`. -/
theorem fetch_lipana_status_no_raise (provider : Nat → PageResp) (tid : String) (p : Nat) :
    p ∈ pagesQueried provider tid →
    (provider p = .exn ∨ provider p = .httpErr ∨ provider p = .badJson) →
    fetch_lipana_status provider tid = none := by
  intro hp hfail
  obtain ⟨f2, hf2, heq⟩ := queriedLoop_reach provider tid 3 1 p hp
  have hb := queriedLoop_bounds provider tid 3 1 p hp
  obtain ⟨k, rfl⟩ : ∃ k, f2 = k + 1 := ⟨f2 - 1, by omega⟩
  show fetchLoop provider tid 3 1 = none
  rw [heq]
  simp only [fetchLoop]
  rw [if_pos (show p ≤ 3 by omega)]
  rcases hfail with h | h | h <;> simp only [h]

theorem fetch_lipana_status_no_raise_witness :
    fetch_lipana_status providerFail "tx" = none :=
  fetch_lipana_status_no_raise providerFail "tx" 1 (by decide) (Or.inl rfl)

lemma keyEq_refl_of_hashable (j : Json) (h : j.hashable = true) : j.keyEq j = true := by
  cases j <;> simp_all [Json.keyEq, Json.hashable]

lemma keyEq_str_eq {a : Json} {s : String} (h : a.keyEq (Json.str s) = true) :
    a = Json.str s := by
  cases a <;> simp_all [Json.keyEq]

lemma containsKey_append (s s' : Store) (k : Json) :
    containsKey (s ++ s') k = (containsKey s k || containsKey s' k) := by
  induction s with
  | nil => simp [containsKey]
  | cons e es ih => simp [containsKey, ih, Bool.or_assoc]

lemma containsKey_setStatus (s : Store) (k k' : Json) (st : String) :
    containsKey (storeSetStatus s k st) k' = containsKey s k' := by
  induction s with
  | nil => rfl
  | cons e es ih =>
    simp only [storeSetStatus, containsKey, ih]
    by_cases h : e.1.keyEq k = true <;> simp [h]

lemma containsKey_storeReplace (s : Store) (k k' : Json) (r : PaymentRecord) :
    containsKey (storeReplace s k r) k' = containsKey s k' := by
  induction s with
  | nil => rfl
  | cons e es ih =>
    simp only [storeReplace, containsKey, ih]
    by_cases h : e.1.keyEq k = true <;> simp [h]

lemma setStatus_idem (s : Store) (k : Json) (st : String) :
    storeSetStatus (storeSetStatus s k st) k st = storeSetStatus s k st := by
  induction s with
  | nil => rfl
  | cons e es ih =>
    simp only [storeSetStatus]
    by_cases h : e.1.keyEq k = true <;> simp [storeSetStatus, h, ih]

lemma setStatus_not_contains (s : Store) (k : Json) (st : String)
    (h : containsKey s k = false) : storeSetStatus s k st = s := by
  induction s with
  | nil => rfl
  | cons e es ih =>
    simp only [containsKey, Bool.or_eq_false_iff] at h
    simp [storeSetStatus, h.1, ih h.2]

lemma setStatus_append (s s' : Store) (k : Json) (st : String) :
    storeSetStatus (s ++ s') k st = storeSetStatus s k st ++ storeSetStatus s' k st := by
  induction s with
  | nil => rfl
  | cons e es ih => simp [storeSetStatus, ih]

lemma containsKey_storePut_self (s : Store) (k : Json) (r : PaymentRecord)
    (hk : k.keyEq k = true) : containsKey (storePut s k r) k = true := by
  unfold storePut
  by_cases h : containsKey s k = true
  · simp [h, containsKey_storeReplace]
  · simp [h, containsKey_append, containsKey, hk]

lemma webhookApply_idem (store store2 : Store) (tid : Json) (resolved : String)
    (ed : List (String × Json))
    (h : webhookApply store tid resolved ed = some store2) :
    webhookApply store2 tid resolved ed = some store2 := by
  unfold webhookApply at h ⊢
  by_cases hh : tid.hashable = true
  case neg =>
    rw [Bool.not_eq_true] at hh
    simp [hh] at h
  case pos =>
    rw [if_pos hh] at h ⊢
    by_cases hc : containsKey store tid = true
    · rw [if_pos hc] at h
      obtain rfl : storeSetStatus store tid resolved = store2 := by
        injection h
      rw [if_pos (by rw [containsKey_setStatus]; exact hc), setStatus_idem]
    · rw [Bool.not_eq_true] at hc
      rw [if_neg (by simp [hc])] at h
      rcases hph : webhookPhone ed with _ | ph
      · simp only [hph] at h
        exact Option.noConfusion h
      · simp only [hph] at h
        obtain rfl : storePut store tid ⟨resolved, ph, jget ed "amount" Json.null⟩ = store2 := by
          injection h
        rw [if_pos (containsKey_storePut_self _ _ _ (keyEq_refl_of_hashable _ hh))]
        unfold storePut
        rw [if_neg (by simp [hc]), setStatus_append, setStatus_not_contains _ _ _ hc]
        simp [storeSetStatus, keyEq_refl_of_hashable _ hh]

/-- C8: webhook ingestion is idempotent.  Whatever the starting store and
however the handler disposed of a webhook request (401, 400, or a 200 that
updated or registered a record), replaying the identical request against the
resulting store returns the same response and leaves the store exactly as
after the first application. -/
theorem webhook_idempotent (store : Store) (sigHeader : Option String) (expected : String)
    (parsed : Option Json) (r : WebhookResp) (s1 : Store)
    (h : webhook store sigHeader expected parsed = some (r, s1)) :
    webhook s1 sigHeader expected parsed = some (r, s1) := by
  simp only [webhook] at h ⊢
  split at h
  next hsig =>
    simp only [Option.some.injEq, Prod.mk.injEq] at h
    obtain ⟨rfl, rfl⟩ := h
    rw [if_pos hsig]
  next hsig =>
    rw [if_neg hsig]
    split at h
    next hver =>
      simp only [Option.some.injEq, Prod.mk.injEq] at h
      obtain ⟨rfl, rfl⟩ := h
      rw [if_pos hver]
    next hver =>
      rw [if_neg hver]
      rcases parsed with _ | j
      · simp only [Option.some.injEq, Prod.mk.injEq] at h
        obtain ⟨rfl, rfl⟩ := h
        rfl
      · rcases j with _ | b | n | s | elts | fields
        · simp at h
        · simp at h
        · simp at h
        · simp at h
        · simp at h
        · rcases hd : jget fields "data" (.obj []) with _ | b | n | s | elts | ed
          · simp only [hd] at h; exact Option.noConfusion h
          · simp only [hd] at h; exact Option.noConfusion h
          · simp only [hd] at h; exact Option.noConfusion h
          · simp only [hd] at h; exact Option.noConfusion h
          · simp only [hd] at h; exact Option.noConfusion h
          · simp only [hd] at h ⊢
            rcases hraw : pyStrOrEmpty (jget ed "status" (.str "")) with _ | raw
            · simp only [hraw] at h; exact Option.noConfusion h
            · simp only [hraw] at h ⊢
              rcases happ :
                  webhookApply store (webhookTransactionId ed) (map_lipana_status raw) ed
                with _ | store2
              · simp only [happ] at h; exact Option.noConfusion h
              · simp only [happ] at h
                simp only [Option.some.injEq, Prod.mk.injEq] at h
                obtain ⟨rfl, rfl⟩ := h
                simp only [webhookApply_idem store store2 _ _ _ happ]

theorem webhook_idempotent_witness :
    webhook [(Json.str "t1", ⟨"success", "254700000001", Json.num 50⟩)]
        (some "sig") "sig" (some payloadEx) =
      some (.received, [(Json.str "t1", ⟨"success", "254700000001", Json.num 50⟩)]) :=
  webhook_idempotent [] (some "sig") "sig" (some payloadEx) .received
    [(Json.str "t1", ⟨"success", "254700000001", Json.num 50⟩)] rfl

/-- C5: a webhook request whose `X-Lipana-Signature` header is missing, or
whose signature differs from the hex HMAC-SHA256 of the raw body under the
shared secret, is answered 401 with the store untouched; a request carrying
the correct (necessarily non-empty hex) signature but a body `json.loads`
rejects is answered 400, the store again untouched — the event body is never
applied in any of these cases. -/
theorem webhook_unauthorized_or_bad_json (store : Store) (sigHeader : Option String)
    (expected : String) (parsed : Option Json) :
    (sigHeader ≠ some expected →
      webhook store sigHeader expected parsed = some (.unauthorizedMissing, store) ∨
      webhook store sigHeader expected parsed = some (.unauthorizedInvalid, store))
    ∧ (sigHeader = some expected → expected ≠ "" → parsed = none →
      webhook store sigHeader expected parsed = some (.invalidJson, store)) := by
  constructor
  · intro hne
    rcases sigHeader with _ | s
    · left; simp [webhook]
    · by_cases hs : s = ""
      · left; simp [webhook, hs]
      · right
        have hne' : s ≠ expected := fun h => hne (by rw [h])
        simp [webhook, hs, verify_webhook_signature, hne']
  · rintro rfl hne rfl
    simp [webhook, hne, verify_webhook_signature]

theorem webhook_unauthorized_or_bad_json_witness :
    webhook [(Json.str "t", ⟨"pending", "p", Json.num 20⟩)] none "abc" (some payloadEx)
        = some (.unauthorizedMissing, [(Json.str "t", ⟨"pending", "p", Json.num 20⟩)]) ∨
      webhook [(Json.str "t", ⟨"pending", "p", Json.num 20⟩)] none "abc" (some payloadEx)
        = some (.unauthorizedInvalid, [(Json.str "t", ⟨"pending", "p", Json.num 20⟩)]) :=
  (webhook_unauthorized_or_bad_json _ none "abc" (some payloadEx)).1 (by simp)

lemma mem_setStatus (s : Store) (key : Json) (st : String) (k : Json) (r : PaymentRecord)
    (h : (k, r) ∈ storeSetStatus s key st) : (k, r) ∈ s ∨ k.keyEq key = true := by
  induction s with
  | nil => simp [storeSetStatus] at h
  | cons e es ih =>
    simp only [storeSetStatus, List.mem_cons] at h
    rcases h with h | h
    · by_cases hk : e.1.keyEq key = true
      · rw [if_pos hk] at h
        right
        obtain ⟨rfl, -⟩ := Prod.mk.injEq .. |>.mp h
        exact hk
      · rw [if_neg hk] at h
        exact Or.inl (List.mem_cons.mpr (Or.inl h))
    · rcases ih h with h' | h'
      · exact Or.inl (List.mem_cons.mpr (Or.inr h'))
      · exact Or.inr h'

/-- C9 counterexample: a verified webhook event registering an unseen id
whose payload carries no `amount` key stores `None` (`Json.null`) as the
amount — `event_data.get("amount")` has no zero default — so the stored
amount is not the claimed zero. -/
theorem webhook_new_record_amount_counterexample :
    webhook [] (some "sig") "sig"
        (some (.obj [("data",
          .obj [("transactionId", Json.str "t9"), ("status", Json.str "success")])]))
      = some (.received, [(Json.str "t9", ⟨"success", "", Json.null⟩)])
    ∧ Json.null ≠ Json.num 0 :=
  ⟨rfl, fun h => Json.noConfusion h⟩

/-- C9 (amended): a verified webhook event whose tracking id is unseen
creates a record whose status is the normalized event status and whose phone
is the event's phone with leading `+` stripped, defaulting to `""` when the
key is absent — but whose amount is the raw event value, stored as `None`
(`Json.null`), not zero, when the key is absent (`jget ed "amount"
Json.null`). -/
theorem webhook_new_record_fields (store : Store) (expected : String)
    (fields ed : List (String × Json)) (raw ph : String)
    (hexp : expected ≠ "")
    (hdata : jget fields "data" (.obj []) = .obj ed)
    (hraw : pyStrOrEmpty (jget ed "status" (.str "")) = some raw)
    (hhash : (webhookTransactionId ed).hashable = true)
    (hnew : containsKey store (webhookTransactionId ed) = false)
    (hph : webhookPhone ed = some ph) :
    webhook store (some expected) expected (some (.obj fields)) =
      some (.received, store ++ [(webhookTransactionId ed,
        ⟨map_lipana_status raw, ph, jget ed "amount" Json.null⟩)]) := by
  have happ : webhookApply store (webhookTransactionId ed) (map_lipana_status raw) ed =
      some (store ++ [(webhookTransactionId ed,
        ⟨map_lipana_status raw, ph, jget ed "amount" Json.null⟩)]) := by
    unfold webhookApply
    rw [if_pos hhash, if_neg (by simp [hnew])]
    simp [hph, storePut, hnew]
  simp only [webhook, Option.getD_some]
  rw [if_neg hexp, if_neg (by simp [verify_webhook_signature])]
  simp only [hdata, hraw, happ]

theorem webhook_new_record_fields_witness :
    webhook [] (some "sig") "sig" (some payloadEx) =
      some (.received, [] ++ [(webhookTransactionId
          [("transactionId", .str "t1"), ("status", .str "success"),
           ("phone", .str "+254700000001"), ("amount", .num 50)],
        ⟨map_lipana_status "success", "254700000001",
          jget [("transactionId", .str "t1"), ("status", .str "success"),
            ("phone", .str "+254700000001"), ("amount", .num 50)] "amount" Json.null⟩)]) :=
  webhook_new_record_fields [] "sig"
    [("event", .str "payment.success"),
     ("data", .obj [("transactionId", .str "t1"), ("status", .str "success"),
                    ("phone", .str "+254700000001"), ("amount", .num 50)])]
    _ "success" "254700000001" (by simp) rfl rfl rfl rfl rfl

/-- C10: a webhook request with a valid signature and a valid JSON object
body whose `data` object has neither `transactionId` nor `transaction_id` is
not rejected: provided the payload fields have their documented types (a
string-or-falsy `status`; a string-or-absent `phone` when a new record is
registered), the handler answers `200 {received: true}` and creates or
updates the record keyed by the empty string — any entry of the final store
beyond the initial ones is keyed `""`, so distinct id-less events all
collide on that single key. -/
theorem webhook_missing_id_collides_on_empty (store : Store) (expected : String)
    (fields ed : List (String × Json)) (raw : String)
    (hexp : expected ≠ "")
    (hdata : jget fields "data" (.obj []) = .obj ed)
    (hid1 : ed.lookup "transactionId" = none)
    (hid2 : ed.lookup "transaction_id" = none)
    (hraw : pyStrOrEmpty (jget ed "status" (.str "")) = some raw)
    (hok : containsKey store (Json.str "") = true ∨ ∃ ph, webhookPhone ed = some ph) :
    ∃ store2,
      webhook store (some expected) expected (some (.obj fields)) =
        some (.received, store2)
      ∧ containsKey store2 (Json.str "") = true
      ∧ ∀ k r, (k, r) ∈ store2 → (k, r) ∈ store ∨ k = Json.str "" := by
  have htid : webhookTransactionId ed = Json.str "" := by
    simp [webhookTransactionId, jget, hid1, hid2, Json.truthy]
  by_cases hc : containsKey store (Json.str "") = true
  · refine ⟨storeSetStatus store (Json.str "") (map_lipana_status raw), ?_, ?_, ?_⟩
    · have happ : webhookApply store (webhookTransactionId ed) (map_lipana_status raw) ed =
          some (storeSetStatus store (Json.str "") (map_lipana_status raw)) := by
        rw [htid]
        unfold webhookApply
        rw [if_pos (show (Json.str "").hashable = true from rfl), if_pos hc]
      simp only [webhook, Option.getD_some]
      rw [if_neg hexp, if_neg (by simp [verify_webhook_signature])]
      simp only [hdata, hraw, happ]
    · rw [containsKey_setStatus]; exact hc
    · intro k r hmem
      rcases mem_setStatus _ _ _ _ _ hmem with h | h
      · exact Or.inl h
      · exact Or.inr (keyEq_str_eq h)
  · rcases hok with hc' | ⟨ph, hph⟩
    · exact absurd hc' hc
    · refine ⟨store ++ [(Json.str "",
        ⟨map_lipana_status raw, ph, jget ed "amount" Json.null⟩)], ?_, ?_, ?_⟩
      · have happ : webhookApply store (webhookTransactionId ed) (map_lipana_status raw) ed =
            some (store ++ [(Json.str "",
              ⟨map_lipana_status raw, ph, jget ed "amount" Json.null⟩)]) := by
          rw [htid]
          unfold webhookApply
          rw [if_pos (show (Json.str "").hashable = true from rfl), if_neg (by simp [hc])]
          simp [hph, storePut, eq_false_of_ne_true hc]
        simp only [webhook, Option.getD_some]
        rw [if_neg hexp, if_neg (by simp [verify_webhook_signature])]
        simp only [hdata, hraw, happ]
      · simp [containsKey_append, containsKey, Json.keyEq]
      · intro k r hmem
        rcases List.mem_append.mp hmem with h | h
        · exact Or.inl h
        · right
          simp only [List.mem_singleton] at h
          exact congrArg Prod.fst h

theorem webhook_missing_id_collides_on_empty_witness :
    ∃ store2,
      webhook [] (some "sig") "sig"
          (some (.obj [("data",
            .obj [("status", Json.str "failed"), ("phone", Json.str "+15551234")])])) =
        some (.received, store2)
      ∧ containsKey store2 (Json.str "") = true
      ∧ ∀ k r, (k, r) ∈ store2 → (k, r) ∈ ([] : Store) ∨ k = Json.str "" :=
  webhook_missing_id_collides_on_empty [] "sig"
    [("data", .obj [("status", Json.str "failed"), ("phone", Json.str "+15551234")])]
    [("status", Json.str "failed"), ("phone", Json.str "+15551234")] "failed"
    (by simp) rfl rfl rfl rfl (Or.inr ⟨"15551234", rfl⟩)

/-- C7: polling an id absent from the store consults the remote fetcher:
when it yields a status, a new record is materialized with that status, the
sentinel phone `"Recovered"` marking an unknown subscriber and amount zero,
and the request answers 200 with those fields; when it yields nothing, the
request answers `404 {"status": "not_found"}` and the store is unchanged —
no record is created. -/
theorem check_status_recovery (store : Store) (provider : Nat → PageResp) (tid : String)
    (habs : storeGet store (.str tid) = none) :
    (∀ live, fetch_lipana_status provider tid = some live →
      check_status store provider tid =
        (.ok live "Recovered" (.num 0),
         storePut store (.str tid) ⟨live, "Recovered", .num 0⟩))
    ∧ (fetch_lipana_status provider tid = none →
      check_status store provider tid = (.notFound, store)) := by
  constructor
  · intro live hl
    simp only [check_status, habs, hl]
  · intro hl
    simp only [check_status, habs, hl]

theorem check_status_recovery_witness :
    check_status [] providerFail "tx" = (.notFound, []) :=
  (check_status_recovery [] providerFail "tx" rfl).2 rfl

/-- C1 (amended): the terminal-preserving merge holds on the poll path but
not on the webhook path.  For a stored record whose status is terminal (not
`"pending"`), `check_status` performs no store write and returns the record
unchanged, and a pending record is only ever overwritten with a non-pending
fetched status; but the webhook store-update step overwrites the stored
status with the event's normalized status unconditionally
(`payment_store[transaction_id]["status"] = resolved`), so a verified
webhook whose normalized status is `pending` moves a terminal stored status
back to `pending`. -/
theorem terminal_status_merge (store : Store) (provider : Nat → PageResp) (tid : String)
    (record : PaymentRecord) (hrec : storeGet store (.str tid) = some record) :
    (record.status ≠ "pending" →
      check_status store provider tid =
        (.ok record.status record.phone record.amount, store))
    ∧ (record.status = "pending" →
       ∀ live, fetch_lipana_status provider tid = some live → live ≠ "pending" →
        check_status store provider tid =
          (.ok live record.phone record.amount, storeSetStatus store (.str tid) live))
    ∧ (∀ (s2 : Store) (tid2 : Json) (resolved : String) (ed : List (String × Json)),
        tid2.hashable = true → containsKey s2 tid2 = true →
        webhookApply s2 tid2 resolved ed = some (storeSetStatus s2 tid2 resolved)) := by
  refine ⟨?_, ?_, ?_⟩
  · intro hterm
    simp only [check_status, hrec]
    rw [if_neg hterm]
  · intro hpend live hl hnp
    simp only [check_status, hrec, hl]
    rw [if_pos hpend, if_pos hnp]
  · intro s2 tid2 resolved ed hhash hc
    unfold webhookApply
    rw [if_pos hhash, if_pos hc]

theorem terminal_status_merge_witness :
    check_status [(Json.str "t", ⟨"failed", "254700", Json.num 5⟩)] providerFail "t" =
      (.ok "failed" "254700" (Json.num 5),
       [(Json.str "t", ⟨"failed", "254700", Json.num 5⟩)]) :=
  (terminal_status_merge [(Json.str "t", ⟨"failed", "254700", Json.num 5⟩)]
    providerFail "t" ⟨"failed", "254700", Json.num 5⟩ rfl).1 (by simp)

/-- C1 counterexample: the stored status does move away from a terminal
value back to `pending`.  With id `t` stored as `success`, a verified
webhook whose event status normalizes to `pending` overwrites the record
unconditionally (`payment_store[transaction_id]["status"] = resolved`),
leaving the store with status `pending` — the claimed rejection of a
`pending` write over a terminal status does not happen on the webhook
path. -/
theorem terminal_status_webhook_counterexample :
    webhook [(Json.str "t", ⟨"success", "254700000000", Json.num 50⟩)] (some "sig") "sig"
        (some (.obj [("event", .str "payment.pending"),
          ("data", .obj [("transactionId", Json.str "t"), ("status", Json.str "pending")])]))
      = some (.received, [(Json.str "t", ⟨"pending", "254700000000", Json.num 50⟩)])
    ∧ "success" ≠ "pending" :=
  ⟨rfl, by decide⟩

/-- C2: the status normalizer is a pure total function on strings: writing
`r` for the input lowercased and stripped of surrounding whitespace, the
result is `success` exactly when `r ∈ {success, completed}`, `failed` exactly
when `r ∈ {failed, failure, cancelled, canceled}`, and `pending` in every
other case (including the empty string and unknown vocabulary); the result
always lies in the internal status vocabulary and no input is an error. -/
theorem map_lipana_status_spec (raw : String) :
    map_lipana_status raw ∈ internalStatuses
    ∧ (map_lipana_status raw = "success" ↔
        pyStrip (pyLower raw) = "success" ∨ pyStrip (pyLower raw) = "completed")
    ∧ (map_lipana_status raw = "failed" ↔
        (pyStrip (pyLower raw) = "failed" ∨ pyStrip (pyLower raw) = "failure" ∨
         pyStrip (pyLower raw) = "cancelled" ∨ pyStrip (pyLower raw) = "canceled"))
    ∧ (map_lipana_status raw = "pending" ↔
        (¬ (pyStrip (pyLower raw) = "success" ∨ pyStrip (pyLower raw) = "completed") ∧
         ¬ (pyStrip (pyLower raw) = "failed" ∨ pyStrip (pyLower raw) = "failure" ∨
            pyStrip (pyLower raw) = "cancelled" ∨ pyStrip (pyLower raw) = "canceled"))) := by
  by_cases h1 : pyStrip (pyLower raw) = "success" ∨ pyStrip (pyLower raw) = "completed"
  · simp [map_lipana_status, h1, internalStatuses]
    rcases h1 with h | h <;> simp [h]
  · by_cases h2 : pyStrip (pyLower raw) = "failed" ∨ pyStrip (pyLower raw) = "failure" ∨
        pyStrip (pyLower raw) = "cancelled" ∨ pyStrip (pyLower raw) = "canceled"
    · simp [map_lipana_status, h1, h2, internalStatuses]
    · simp [map_lipana_status, h1, h2, internalStatuses]

/-- C6: a `POST /pay` body whose phone is empty (absent, empty or
whitespace-only), whose amount is missing or fails to convert to a number,
or whose converted amount is below the configured minimum of 10, is answered
400 whatever the provider would have replied: the provider is never called
(the flag is `false`) and the store is unchanged. -/
theorem initiate_payment_validation (store : Store) (parsed : Option Json)
    (fields : List (String × Json)) (push : PushResult)
    (hbody : getJsonBody parsed = .obj fields)
    (hbad :
      pyStrip (pyStr (jget fields "phone" (.str ""))) = "" ∨
      ¬ (jget fields "amount" Json.null).truthy = true ∨
      pyFloatToInt (jget fields "amount" Json.null) = none ∨
      (∃ a, pyFloatToInt (jget fields "amount" Json.null) = some a ∧ a < 10)) :
    ∃ msg, initiate_payment store parsed push =
      some (.badRequest msg, store, false) := by
  simp only [initiate_payment, hbody]
  by_cases hp : pyStrip (pyStr (jget fields "phone" (.str ""))) = ""
  · rw [if_pos hp]; exact ⟨_, rfl⟩
  · rw [if_neg hp]
    by_cases ht : (jget fields "amount" Json.null).truthy = true
    · rw [if_neg (by simp [ht])]
      rcases hparse : pyFloatToInt (jget fields "amount" Json.null) with _ | a
      · simp only [hparse]; exact ⟨_, rfl⟩
      · simp only [hparse]
        by_cases hmin : a < 10
        · rw [if_pos hmin]; exact ⟨_, rfl⟩
        · rcases hbad with h | h | h | ⟨a', ha', hlt⟩
          · exact absurd h hp
          · exact absurd ht h
          · rw [hparse] at h; exact Option.noConfusion h
          · rw [hparse] at ha'
            obtain rfl : a = a' := Option.some_inj.mp ha'
            exact absurd hlt hmin
    · rw [if_pos (by simpa using ht)]
      exact ⟨_, rfl⟩

theorem initiate_payment_validation_witness :
    ∃ msg, initiate_payment [] (some (.obj [("phone", Json.str "0712345678"),
        ("amount", Json.num 5)])) .timeout =
      some (.badRequest msg, [], false) :=
  initiate_payment_validation [] _ [("phone", Json.str "0712345678"), ("amount", Json.num 5)]
    .timeout rfl (Or.inr (Or.inr (Or.inr ⟨5, rfl, by decide⟩)))


